import Mathlib

/-!
Shallow embedding of the wander-cache repository's core logic, with
theorems checking the natural-language specification against the code.

Each definition mirrors one source function; the source file and symbol
are named in the doc comment. Asynchronous effects (network fetches,
redis reads/writes, sleeps) are made explicit: fetch outcomes become
`Except`/`Option` parameters, cache state and write operations become
explicit values, and sleeps are recorded in returned traces. Errors are
modelled as `String` values (JS exception messages).
-/

namespace WanderCache

/-! ## RetryPolicy: src/src/utils/retry.utils.ts `retryWithDelay` -/

/-- Trace of one `retryWithDelay` run: the final outcome, the 0-based
attempt indices the operation was invoked with (in order), and the sleep
durations performed between failed attempts (in order). -/
structure RetryTrace (α : Type) where
  outcome : Except String α
  calls : List Nat
  sleeps : List Nat
  deriving Repr

/-- Loop of `retryWithDelay` (src/src/utils/retry.utils.ts, lines 25-37):
`for (let attempts = 0; attempts < maxAttempts; attempts++) try ... catch ...`.
`fn` gives the (modelled-deterministic) outcome of the attempt with the
given 0-based index; `fuel` counts the remaining loop iterations
(`maxAttempts - attempts`). When the loop ends without returning (only
possible when `maxAttempts = 0`) the source throws "Max attempts reached". -/
def retryGo (fn : Nat → Except String α) (getDelay : Nat → Nat) :
    Nat → Nat → RetryTrace α
  | _, 0 => ⟨Except.error "Max attempts reached", [], []⟩
  | attempts, 1 =>
    match fn attempts with
    | Except.ok v => ⟨Except.ok v, [attempts], []⟩
    | Except.error e => ⟨Except.error e, [attempts], []⟩
  | attempts, fuel + 2 =>
    match fn attempts with
    | Except.ok v => ⟨Except.ok v, [attempts], []⟩
    | Except.error _ =>
      let rest := retryGo fn getDelay (attempts + 1) (fuel + 1)
      ⟨rest.outcome, attempts :: rest.calls, getDelay attempts :: rest.sleeps⟩

/-- src/src/utils/retry.utils.ts `retryWithDelay`: retries `fn` up to
`maxAttempts` times, sleeping `getDelay attempts` between failed attempts;
on the last failed attempt the error is rethrown without sleeping. -/
def retryWithDelay (fn : Nat → Except String α) (maxAttempts : Nat)
    (getDelay : Nat → Nat) : RetryTrace α :=
  retryGo fn getDelay 0 maxAttempts

/-! ## TierEngine: src/src/lib/tier.ts -/

/-- One entry of the fixed `Tiers` table (src/src/lib/tier.ts, lines 44-80). -/
structure TierDef where
  thresholdPercent : Nat
  progressMin : Nat
  progressMax : Nat
  deriving Repr, DecidableEq

/-- src/src/lib/tier.ts `Tiers` (lines 44-80): Prime, Edge, Reserve,
Select, Core, with cumulative percentile thresholds 2/20/50/80/100. -/
def Tiers : List TierDef :=
  [⟨2, 98, 100⟩, ⟨20, 80, 98⟩, ⟨50, 50, 80⟩, ⟨80, 20, 50⟩, ⟨100, 0, 20⟩]

/-- src/src/lib/tier.ts `TierTypes.CORE` = 5, the lowest tier. -/
def TierTypesCORE : Nat := 5

/-- `Math.ceil((percent * total) / 100)` over naturals: ceiling division
of `percent * total` by 100. -/
def ceilPct (percent total : Nat) : Nat := (percent * total + 99) / 100

/-- One entry of the `tierThresholds` array (src/src/lib/tier.ts, lines
94-103). -/
structure TierThreshold where
  maxRank : Nat
  minRank : Nat
  deriving Repr, DecidableEq

/-- src/src/lib/tier.ts `getTierThresholds` (lines 87-109): for
`totalWallets > 0`, one threshold per tier with
`maxRank = Math.ceil(thresholdPercent * totalWallets / 100)` and
`minRank = 1` for the first tier, previous tier's `maxRank + 1` after;
the empty list for `totalWallets = 0`. -/
def getTierThresholds (totalWallets : Nat) : List TierThreshold :=
  if 0 < totalWallets then
    (List.range Tiers.length).map (fun i =>
      { maxRank := ceilPct ((Tiers.getD i ⟨0, 0, 0⟩).thresholdPercent) totalWallets,
        minRank := if i = 0 then 1
          else ceilPct ((Tiers.getD (i - 1) ⟨0, 0, 0⟩).thresholdPercent) totalWallets + 1 })
  else []

/-- Loop of `getWalletTier` (src/src/lib/tier.ts, lines 134-138): scan
the thresholds in order, returning the 1-based index of the first tier
whose `maxRank` is at least the wallet's rank; `TierTypes.CORE` when the
scan falls through (line 140). `i` is the 0-based index of the head. -/
def findTierLoop (walletRank : Nat) : List TierThreshold → Nat → Nat
  | [], _ => TierTypesCORE
  | t :: ts, i => if walletRank ≤ t.maxRank then i + 1 else findTierLoop walletRank ts (i + 1)

/-- src/src/lib/tier.ts `getWalletTier` (lines 129-141). For
`totalWallets > 0` the thresholds list has exactly `Tiers.length`
entries, so the recursion over the list coincides with the source's
index loop. -/
def getWalletTier (walletRank totalWallets : Nat) : Nat :=
  if walletRank = 0 then TierTypesCORE
  else findTierLoop walletRank (getTierThresholds totalWallets) 0

/-- Definition following the words of the spec (spec.md §4.5) for
comparison with `getWalletTier`: rank 0 is the lowest tier; otherwise
the first tier `i` in ascending threshold order over `[2,20,50,80,100]`
with `ceil(threshold_i * total / 100) >= rank`, defaulting to the lowest
tier. -/
def tierOfSpec (rank total : Nat) : Nat :=
  if rank = 0 then 5
  else
    match (List.range 5).find?
        (fun i => rank ≤ ceilPct (([2, 20, 50, 80, 100].getD i 0)) total) with
    | some i => i + 1
    | none => 5

/-- src/src/lib/tier.ts `calculateTierProgressPercent` (lines 117-127):
0 when `walletRank <= 0 || totalWallets <= 0`, otherwise
`Math.floor(((totalWallets - walletRank + 1) / totalWallets) * 100 * 10^6) / 10^6`.
JS number arithmetic is idealized as exact rational arithmetic. -/
def calculateTierProgressPercent (walletRank totalWallets : Int) : ℚ :=
  if walletRank ≤ 0 ∨ totalWallets ≤ 0 then 0
  else (⌊(((totalWallets : ℚ) - (walletRank : ℚ) + 1) / (totalWallets : ℚ)) * 100 * 10 ^ 6⌋ : ℚ) / 10 ^ 6

/-- Definition following the words of the spec (spec.md §4.5) for
comparison with `calculateTierProgressPercent`: 0 if
`rank <= 0 or total <= 0`, else
`floor(((total - rank + 1) / total) * 100 * 1e6) / 1e6`
(six-decimal truncation, not rounding). -/
def progressOfSpec (rank total : Int) : ℚ :=
  if rank ≤ 0 ∨ total ≤ 0 then 0
  else (⌊((total - rank + 1 : ℚ) / (total : ℚ)) * 100 * 10 ^ 6⌋ : ℚ) / 10 ^ 6

/-! ## Secrets: src/src/utils/secrets.utils.ts `isSecretEqual` -/

/-- `Buffer.from(string)` UTF-8 encodes the string; modelled as the list
of UTF-8 bytes. -/
def bufferFrom (s : String) : List UInt8 := s.data.flatMap String.utf8EncodeChar

/-- Node's `crypto.timingSafeEqual`: throws when the buffers' byte
lengths differ, otherwise reports whether the buffers are equal (its
constant-time execution is a real-time property outside this model). -/
def timingSafeEqual (a b : List UInt8) : Except String Bool :=
  if a.length ≠ b.length then
    Except.error "Input buffers must have the same byte length"
  else Except.ok (a == b)

/-- Body of the `try` block of `isSecretEqual`
(src/src/utils/secrets.utils.ts, lines 7-15): build the two buffers,
return `false` when their lengths differ, otherwise compare them with
`crypto.timingSafeEqual`. An `Except.error` value models a thrown
exception. -/
def isSecretEqualBody (providedToken expectedToken : String) : Except String Bool :=
  let providedBuffer := bufferFrom providedToken
  let expectedBuffer := bufferFrom expectedToken
  if providedBuffer.length ≠ expectedBuffer.length then Except.ok false
  else timingSafeEqual providedBuffer expectedBuffer

/-- src/src/utils/secrets.utils.ts `isSecretEqual` (lines 3-19): the
`catch` clause turns any thrown exception into `false`, so the function
is total with result type `Bool`. -/
def isSecretEqual (providedToken expectedToken : String) : Bool :=
  match isSecretEqualBody providedToken expectedToken with
  | Except.ok b => b
  | Except.error _ => false

/-! ## ShardPlan: src/src/utils/chunk.utils.ts and the variant bundled in
src/src/utils/secrets.utils.ts -/

/-- One day in milliseconds (`ONE_DAY_MS = 24 * 60 * 60 * 1000`). -/
def ONE_DAY_MS : Nat := 24 * 60 * 60 * 1000

/-- Modulus of JS 32-bit unsigned arithmetic. -/
def U32 : Nat := 4294967296

/-- One character step of `fastHash` (src/src/utils/chunk.utils.ts,
lines 9-18): `hash ^= charCode` followed by
`(hash + (hash<<1) + (hash<<4) + (hash<<7) + (hash<<8) + (hash<<24)) >>> 0`,
which equals multiplication by 16777619 modulo 2^32. -/
def fastHashStep (hash c : Nat) : Nat :=
  (Nat.xor hash c) * 16777619 % U32

/-- src/src/utils/chunk.utils.ts `fastHash` (lines 6-26): FNV-1a-style
loop over the string's UTF-16 code units followed by a final avalanche.
`Math.imul(x, y) >>> 0` is multiplication modulo 2^32; `x >>> n` is a
logical right shift. `Char.toNat` agrees with `charCodeAt` for
characters in the Basic Multilingual Plane, which covers the ASCII
token IDs the repository hashes. -/
def fastHash (s : String) : Nat :=
  let h0 := s.data.foldl (fun hash ch => fastHashStep hash ch.toNat) 0x811c9dc5
  let h1 := Nat.xor h0 (h0 >>> 16)
  let h2 := h1 * 0x85ebca6b % U32
  let h3 := Nat.xor h2 (h2 >>> 13)
  let h4 := h3 * 0xc2b2ae35 % U32
  Nat.xor h4 (h4 >>> 16)

/-- src/src/utils/chunk.utils.ts `getTokenChunk` (lines 44-46):
`fastHash(tokenId) % numChunks`. -/
def getTokenChunk (tokenId : String) (numChunks : Nat) : Nat :=
  fastHash tokenId % numChunks

/-- Gregorian leap-year test, as implemented by JS `Date`. -/
def isLeap (y : Nat) : Bool :=
  y % 4 == 0 && (y % 100 != 0 || y % 400 == 0)

/-- Length of calendar year `y` in days. -/
def yearLengthDays (y : Nat) : Nat := if isLeap y then 366 else 365

/-- Days from the Unix epoch (1970-01-01) to the start of year `y`
(for `y ≥ 1970`). -/
def daysFromEpochToYearStart (y : Nat) : Nat :=
  (List.range (y - 1970)).foldl (fun acc i => acc + yearLengthDays (1970 + i)) 0

/-- Calendar year containing the given epoch-day count: walk forward
from 1970 consuming whole years. Fuel-based recursion (the fuel strictly
dominates the day count, and every step consumes at least 365 days). -/
def yearOfEpochDaysGo : Nat → Nat → Nat → Nat
  | 0, y, _ => y
  | fuel + 1, y, d =>
    if d < yearLengthDays y then y
    else yearOfEpochDaysGo fuel (y + 1) (d - yearLengthDays y)

/-- Calendar year (UTC) of an epoch-day count. -/
def yearOfEpochDays (d : Nat) : Nat := yearOfEpochDaysGo (d + 1) 1970 d

/-- src/src/utils/chunk.utils.ts `getDayOfYear` (lines 32-36):
`new Date(now.getFullYear(), 0, 0)` is midnight of December 31 of the
previous year, i.e. one day before the start of the current year;
the result is `Math.floor((now - start) / ONE_DAY_MS)`. Modelled in UTC
for instants from 1971 onward (`nowMs ≥ ONE_DAY_MS`). -/
def getDayOfYear (nowMs : Nat) : Nat :=
  let year := yearOfEpochDays (nowMs / ONE_DAY_MS)
  let startMs := (daysFromEpochToYearStart year - 1) * ONE_DAY_MS
  (nowMs - startMs) / ONE_DAY_MS

/-- src/src/utils/chunk.utils.ts `getTodayChunk` (lines 53-57):
calendar day-of-year modulo `numChunks`, with `Date.now()` made an
explicit `nowMs` parameter. -/
def getTodayChunkCalendar (numChunks nowMs : Nat) : Nat :=
  getDayOfYear nowMs % numChunks

/-- `getTodayChunk` from the chunk-utils variant bundled in
src/src/utils/secrets.utils.ts (lines 64-67):
`Math.floor(Date.now() / ONE_DAY_MS) % numChunks`, with `Date.now()`
made an explicit `nowMs` parameter. -/
def getTodayChunkEpoch (numChunks nowMs : Nat) : Nat :=
  nowMs / ONE_DAY_MS % numChunks

/-! ## CacheResolver for prices: src/unnamed/part_008 `getPrice`
(the src/src/lib/priceService.ts variant has the same control flow but
returns the bare number without the `fresh` flag). The redis read and
the CoinGecko fetch are explicit parameters; `Date.now()` is `now`.
Timestamps are milliseconds, prices are idealized as integers. -/

/-- Cached entry `\x7b price, timestamp \x7d` stored under
`price:symbol:currency`. -/
structure CachedPriceData where
  price : Int
  timestamp : Int
  deriving Repr, DecidableEq

/-- src/unnamed/part_008 `PriceResponse` (lines 34-39); `cachedAt` keeps
the raw timestamp instead of its ISO rendering. -/
structure PriceResponse where
  price : Int
  fresh : Bool
  cachedAt : Option Int
  cacheAge : Option Int
  deriving Repr, DecidableEq

/-- Fetch-and-fallback part of `getPrice` (src/unnamed/part_008, lines
73-105): on fetch success return `fresh=true`; on fetch failure return
the cached value (however stale) with `fresh=false` when one exists,
otherwise rethrow. -/
def getPriceFetch (cachedPrice : Option CachedPriceData)
    (fetchResult : Except String Int) (now : Int) : Except String PriceResponse :=
  match fetchResult with
  | Except.ok price => Except.ok ⟨price, true, some now, some 0⟩
  | Except.error e =>
    match cachedPrice with
    | some c =>
      Except.ok ⟨c.price, false, some c.timestamp, some ((now - c.timestamp).fdiv 1000)⟩
    | none => Except.error ("Failed to fetch price: " ++ e)

/-- src/unnamed/part_008 `getPrice` (lines 41-106): serve the cache when
its age `Math.floor((now - timestamp) / 1000)` is under 300 seconds,
otherwise fetch with stale-on-error fallback. -/
def getPrice (cachedPrice : Option CachedPriceData)
    (fetchResult : Except String Int) (now : Int) : Except String PriceResponse :=
  match cachedPrice with
  | some c =>
    let cacheAge := (now - c.timestamp).fdiv 1000
    if cacheAge < 5 * 60 then Except.ok ⟨c.price, true, some c.timestamp, some cacheAge⟩
    else getPriceFetch cachedPrice fetchResult now
  | none => getPriceFetch cachedPrice fetchResult now

/-! ## ProviderChain: src/src/lib/priceService.ts `fetchBotegaPrices`
(lines 430-457; src/unnamed/part_009 lines 205-228 is the same chain
with two sources). Each price source already catches its own errors and
reports `[succeeded, prices]`, so a source is an outcome value; the
`fetchAOPrice` secondary lookup becomes the `aoPrice` parameter. -/

/-- JS object mapping token IDs to `number | null`, as an insertion-
ordered association list with unique keys. -/
abbrev PriceMap := List (String × Option Int)

/-- Index assignment `m[k] = v`: overwrite in place when the key exists,
append otherwise. -/
def setPrice (m : PriceMap) (k : String) (v : Option Int) : PriceMap :=
  if (m.lookup k).isSome then m.map (fun p => if p.1 = k then (k, v) else p)
  else m ++ [(k, v)]

/-- JS falsiness of `prices[k]`: the key is absent, `null`, or `0`. -/
def isFalsyPrice (v : Option (Option Int)) : Bool :=
  match v with
  | none => true
  | some none => true
  | some (some p) => p == 0

/-- JS `aoPrice || null`: `null` when the fetched AO price is absent or
falsy (0), the price otherwise (src/src/lib/priceService.ts, line 445). -/
def orNull (v : Option Int) : Option Int :=
  match v with
  | some p => if p = 0 then none else some p
  | none => none

/-- Outcome of one price source: the `[succeeded, prices]` pair each
`fetchTokenPricesFrom*` function returns. -/
structure ProviderOutcome where
  succeeded : Bool
  prices : PriceMap
  deriving Repr, DecidableEq

/-- src/src/lib/priceService.ts `AO_PROCESS_ID` (line 153). -/
def AO_PROCESS_ID : String := "0syT13r0s0tgPmIed95bJnuSqaD29HQNN8D3ElLSrsc"

/-- src/src/lib/priceService.ts `fetchBotegaPrices` (lines 430-457): try
the sources in order; the first with `succeeded=true` supplies the
result map verbatim, except that when `tokenIds` contains
`AO_PROCESS_ID` and that entry is falsy, a dedicated `fetchAOPrice`
lookup overwrites it with `aoPrice || null`. When every source fails,
every requested key maps to `null`. -/
def fetchBotegaPrices (tokenIds : List String) (sources : List ProviderOutcome)
    (aoPrice : Option Int) : PriceMap :=
  match sources with
  | [] => tokenIds.map (fun id => (id, none))
  | s :: rest =>
    if s.succeeded then
      if tokenIds.contains AO_PROCESS_ID && isFalsyPrice (s.prices.lookup AO_PROCESS_ID) then
        setPrice s.prices AO_PROCESS_ID (orNull aoPrice)
      else s.prices
    else fetchBotegaPrices tokenIds rest aoPrice

/-! ## Token info: src/src/lib/tokenInfoService.ts and src/unnamed/part_007 -/

/-- `TokenInfo` (src/src/lib/tokenInfoService.ts, lines 4-10). The
`type` field is `"asset"` or `"collectible"`, kept as a string. -/
structure TokenInfo where
  tiName : Option String
  tiTicker : Option String
  tiLogo : Option String
  tiDenomination : Int
  tiType : Option String
  deriving Repr, DecidableEq

/-- One `redis.set` performed by the token-info code: key, stored token
info, `Date.now()` timestamp, and the TTL in seconds when one is passed. -/
structure CacheWrite where
  key : String
  value : TokenInfo
  timestamp : Int
  ttlSeconds : Option Int
  deriving Repr, DecidableEq

/-- src/src/lib/tokenInfoService.ts `CACHE_EXPIRY` (line 43). -/
def CACHE_EXPIRY : Int := 86400

/-- src/src/lib/tokenInfoService.ts `getTokenInfoFromAo` (lines
145-174). The dryrun-and-parse step is the `fetched` parameter; the
function returns the token info together with the `redis.set` it
performed, if any. The source guards the cache write with `if (!save)`,
so it persists exactly when `save` is disabled. -/
def getTokenInfoFromAoSrc (tokenId : String) (fetched : Except String TokenInfo)
    (save : Bool) (now : Int) : Except String (TokenInfo × Option CacheWrite) :=
  match fetched with
  | Except.error e => Except.error e
  | Except.ok tokenInfo =>
    if !save then
      Except.ok (tokenInfo, some ⟨"tokenInfo:" ++ tokenId, tokenInfo, now, some CACHE_EXPIRY⟩)
    else Except.ok (tokenInfo, none)

/-- src/unnamed/part_007 `getTokenInfoFromAo` (lines 163-188): same
shape, but the cache write is guarded with `if (save)` (and carries no
TTL), so it persists exactly when `save` is enabled. -/
def getTokenInfoFromAoP7 (tokenId : String) (fetched : Except String TokenInfo)
    (save : Bool) (now : Int) : Except String (TokenInfo × Option CacheWrite) :=
  match fetched with
  | Except.error e => Except.error e
  | Except.ok tokenInfo =>
    if save then
      Except.ok (tokenInfo, some ⟨"tokenInfo:" ++ tokenId, tokenInfo, now, none⟩)
    else Except.ok (tokenInfo, none)

/-! ## ShardedRefresher: src/unnamed/part_007 `updateAllTokenInfos`
(lines 201-307). The redis scan is the pre-paginated `pages` list of key
suffixes (the `tokenInfo:` namespace already stripped); the per-attempt
dryrun outcome for each key is the `fetch` oracle; `todayChunk` is the
precomputed `getTodayChunk numChunks` value. The bounded `pLimit` pool
only bounds overlapping I/O of independent per-key tasks, so the settled
per-page outcomes are modelled directly. -/

/-- Attempt loop of `pRetry(fn, retries)` starting at attempt `i` with
`fuel` remaining retries: returns the first success, or `none` after the
budget is exhausted, together with the number of invocations made. -/
def pRetryGo (f : Nat → Option α) : Nat → Nat → Option α × Nat
  | i, 0 =>
    (match f i with
     | some v => (some v, i + 1)
     | none => (none, i + 1))
  | i, fuel + 1 =>
    match f i with
    | some v => (some v, i + 1)
    | none => pRetryGo f (i + 1) fuel

/-- `pRetry(fn, ... retries: maxRetries ...)`: at most `maxRetries + 1`
invocations of `fn`. -/
def pRetryModel (f : Nat → Option α) (retries : Nat) : Option α × Nat :=
  pRetryGo f 0 retries

/-- Outcome of one `updateAllTokenInfos` run: the `results` record of
refreshed infos, the aggregated `failedUpdates` keys, and the fetch
trace pairing each processed key with the number of fetch invocations
it received. -/
structure RefreshOutcome where
  results : List (String × TokenInfo)
  failed : List String
  trace : List (String × Nat)
  deriving Repr, DecidableEq

/-- Per-key work of one page (src/unnamed/part_007, lines 238-261):
`pRetry(() => getTokenInfoFromAo(tokenId, false), retries maxRetries)`. -/
def processKey (fetch : String → Nat → Option TokenInfo) (maxRetries : Nat)
    (k : String) : Option TokenInfo × Nat :=
  pRetryModel (fetch k) maxRetries

/-- One page of the scan loop (src/unnamed/part_007, lines 220-284):
keep the keys of today's shard, fetch each with the bounded retry, then
record successes in `results` (and the page's pipelined writes) and
failures in `failedUpdates`. -/
def processPage (fetch : String → Nat → Option TokenInfo)
    (maxRetries numChunks todayChunk : Nat) (page : List String) : RefreshOutcome :=
  let kept := page.filter (fun id => getTokenChunk id numChunks == todayChunk)
  let outs := kept.map (fun k => (k, processKey fetch maxRetries k))
  { results := outs.filterMap (fun p => p.2.1.map (fun ti => (p.1, ti))),
    failed := (outs.filter (fun p => p.2.1.isNone)).map Prod.fst,
    trace := outs.map (fun p => (p.1, p.2.2)) }

/-- src/unnamed/part_007 `updateAllTokenInfos` (lines 201-307): the
do-while over scan pages concatenates every page's settled results,
failed keys and fetch trace, in page order. -/
def updateAllTokenInfos (fetch : String → Nat → Option TokenInfo)
    (maxRetries numChunks todayChunk : Nat) (pages : List (List String)) : RefreshOutcome :=
  { results := (pages.map fun p => (processPage fetch maxRetries numChunks todayChunk p).results).flatten,
    failed := (pages.map fun p => (processPage fetch maxRetries numChunks todayChunk p).failed).flatten,
    trace := (pages.map fun p => (processPage fetch maxRetries numChunks todayChunk p).trace).flatten }

/-! ## TierEngine snapshot acquisition: src/src/lib/tier.ts
`getWalletsTierInfoFromAo` (lines 143-242). The HTTP fetch-and-parse is
the `primaryData` parameter (`Except.error` for a non-ok response /
parse failure); `isArweaveAddress` (imported from address.utils, outside
the provided sources) is the `isAddr` parameter; `Date.now()` is `now`. -/

/-- `TierWallet` (src/src/lib/tier.ts, lines 6-13). The `rank` field is
`number | ""`, modelled as `Option Int` with `none` for the empty
string. -/
structure TierWallet where
  balance : String
  rank : Option Int
  tier : Nat
  progress : ℚ
  snapshotTimestamp : Int
  totalHolders : Int
  deriving Repr, DecidableEq

/-- `ONE_DAY_MS` (src/src/lib/tier.ts, line 85) as an `Int`, for
timestamp arithmetic. -/
def ONE_DAY_MS_INT : Int := 24 * 60 * 60 * 1000

/-- Validated snapshot: the address-keyed records, `snapshotTimestamp`,
and `totalWallets`. -/
structure WalletsTierInfoResult where
  walletsTierInfo : List (String × TierWallet)
  snapshotTimestamp : Int
  totalWallets : Int
  deriving Repr, DecidableEq

/-- Primary (try-block) path of `getWalletsTierInfoFromAo`
(src/src/lib/tier.ts, lines 144-191): keep the records whose key is
address-format-valid, take the first such record, and validate: some
valid record exists; its `snapshotTimestamp` and `totalHolders` are
non-zero (JS truthiness of a number); the count of distinct valid
addresses (`Object.keys(walletsTierInfo).length`) equals
`totalHolders`; and `Date.now() - snapshotTimestamp` is not greater
than `ONE_DAY_MS`. Any violated check throws, which sends the caller to
the fallback path. -/
def getWalletsTierInfoPrimary (isAddr : String → Bool)
    (data : List (String × TierWallet)) (now : Int) :
    Except String WalletsTierInfoResult :=
  match (data.filter (fun p => isAddr p.1)).head? with
  | none => Except.error "No valid wallet data found"
  | some first =>
    if first.2.snapshotTimestamp = 0 ∨ first.2.totalHolders = 0 then
      Except.error "Invalid response from HB"
    else if ((((data.filter (fun p => isAddr p.1)).map Prod.fst).dedup).length : Int) ≠
        first.2.totalHolders then
      Except.error "Total wallets mismatch"
    else if now - first.2.snapshotTimestamp > ONE_DAY_MS_INT then
      Except.error "Snapshot data is too old - needs refresh"
    else
      Except.ok ⟨data.filter (fun p => isAddr p.1), first.2.snapshotTimestamp,
        first.2.totalHolders⟩

/-- src/src/lib/tier.ts `getWalletsTierInfoFromAo` (lines 143-242): the
whole primary path runs inside a `try`; any failure (fetch error or
validation error) falls back to the dryrun-derived snapshot, given here
as the already-assembled `fallback` parameter. The `Bool` records
whether the fallback path produced the result. -/
def getWalletsTierInfoFromAo (isAddr : String → Bool)
    (primaryData : Except String (List (String × TierWallet))) (now : Int)
    (fallback : WalletsTierInfoResult) : WalletsTierInfoResult × Bool :=
  match primaryData with
  | Except.error _ => (fallback, true)
  | Except.ok data =>
    match getWalletsTierInfoPrimary isAddr data now with
    | Except.ok r => (r, false)
    | Except.error _ => (fallback, true)

/-! ## Claim theorems -/

/-- C2: for an operation that fails on every attempt, `retryWithDelay`
with `maxAttempts = 3` invokes the operation exactly 3 times with the
0-based attempt indices 0, 1, 2, sleeps exactly twice (after the first
and second failures, never after the last), and re-raises the error of
the final attempt. -/
theorem retryWithDelay_allFail_trace {α : Type} (fn : Nat → Except String α)
    (getDelay : Nat → Nat) (es : Nat → String)
    (h : ∀ i, i < 3 → fn i = Except.error (es i)) :
    retryWithDelay fn 3 getDelay =
      ⟨Except.error (es 2), [0, 1, 2], [getDelay 0, getDelay 1]⟩ := by
  have h0 := h 0 (by omega)
  have h1 := h 1 (by omega)
  have h2 := h 2 (by omega)
  simp [retryWithDelay, retryGo, h0, h1, h2]

/-- Witness for C2 at a concrete always-failing operation. -/
theorem retryWithDelay_allFail_trace_witness :
    retryWithDelay (fun _ => (Except.error "boom" : Except String Nat)) 3
        (fun a => 100 * (a + 1)) =
      ⟨Except.error "boom", [0, 1, 2], [100, 200]⟩ :=
  retryWithDelay_allFail_trace _ _ (fun _ => "boom") (fun _ _ => rfl)

/-- C7: `calculateTierProgressPercent` agrees everywhere with the spec's
formula — 0 when `rank <= 0` or `total <= 0`, otherwise
`floor(((total - rank + 1) / total) * 100 * 1e6) / 1e6` (six-decimal
truncation) — and in particular maps rank 1 of 100 to 100 and rank 100
of 100 to 1. -/
theorem calculateTierProgressPercent_spec :
    (∀ rank total : Int, calculateTierProgressPercent rank total = progressOfSpec rank total) ∧
    calculateTierProgressPercent 1 100 = 100 ∧
    calculateTierProgressPercent 100 100 = 1 := by
  refine ⟨fun rank total => rfl, ?_, ?_⟩ <;>
    norm_num [calculateTierProgressPercent]

/-- C9: the two day-index definitions used for shard selection — the
calendar day-of-year modulo `numChunks` of src/src/utils/chunk.utils.ts
and the fixed-epoch `Date.now() / ONE_DAY_MS` modulo `numChunks` of the
variant in src/src/utils/secrets.utils.ts — disagree: at the instant
2021-01-01T00:00:00Z (epoch ms 1609459200000, just past a year boundary)
with 2 chunks, the calendar definition selects shard 1 while the epoch
definition selects shard 0. -/
theorem todayChunk_definitions_disagree :
    getTodayChunkCalendar 2 1609459200000 = 1 ∧
    getTodayChunkEpoch 2 1609459200000 = 0 ∧
    getTodayChunkCalendar 2 1609459200000 ≠ getTodayChunkEpoch 2 1609459200000 := by
  refine ⟨by decide, by decide, by decide⟩

/-- C10: `isSecretEqual` is a total `Bool`-valued function (every thrown
exception is caught and reported as `false`); it returns `false`
whenever the two strings' UTF-8 byte lengths differ, short-circuiting
before the constant-time comparison; and it returns `true` only when
the two byte buffers coincide. -/
theorem isSecretEqual_total_lengthGuard :
    (∀ p e : String, (bufferFrom p).length ≠ (bufferFrom e).length →
      isSecretEqual p e = false) ∧
    (∀ p e : String, isSecretEqual p e = true → bufferFrom p = bufferFrom e) := by
  constructor
  · intro p e hne
    simp [isSecretEqual, isSecretEqualBody, hne]
  · intro p e htrue
    by_cases hne : (bufferFrom p).length ≠ (bufferFrom e).length
    · simp [isSecretEqual, isSecretEqualBody, hne] at htrue
    · push_neg at hne
      simp only [isSecretEqual, isSecretEqualBody, hne] at htrue
      simp only [timingSafeEqual, hne] at htrue
      simpa using htrue

/-- Witness for C10: differing byte lengths give `false`; a `true`
answer forces equal buffers. -/
theorem isSecretEqual_total_lengthGuard_witness :
    isSecretEqual "a" "bb" = false ∧ bufferFrom "x" = bufferFrom "x" :=
  ⟨isSecretEqual_total_lengthGuard.1 "a" "bb" (by decide),
   isSecretEqual_total_lengthGuard.2 "x" "x" (by decide)⟩

/-- C4 (code bug in src/src/lib/tokenInfoService.ts): the claim says the
fetched value is persisted exactly when the `save` flag is enabled, but
`getTokenInfoFromAo` there guards the write with `if (!save)`: with
`save = true` (the on-demand default) no write happens, and with
`save = false` (the batch caller, which already persists via pipeline)
the fetch itself also writes. The sibling variant in src/unnamed/part_007
guards the same write with `if (save)` and behaves as the claim states. -/
theorem getTokenInfoFromAoSrc_save_inverted :
    (getTokenInfoFromAoSrc "t" (Except.ok ⟨some "N", some "T", none, 0, some "asset"⟩) true 0 =
      Except.ok (⟨some "N", some "T", none, 0, some "asset"⟩, none)) ∧
    (getTokenInfoFromAoSrc "t" (Except.ok ⟨some "N", some "T", none, 0, some "asset"⟩) false 0 =
      Except.ok (⟨some "N", some "T", none, 0, some "asset"⟩,
        some ⟨"tokenInfo:t", ⟨some "N", some "T", none, 0, some "asset"⟩, 0, some CACHE_EXPIRY⟩)) ∧
    (getTokenInfoFromAoP7 "t" (Except.ok ⟨some "N", some "T", none, 0, some "asset"⟩) true 0 =
      Except.ok (⟨some "N", some "T", none, 0, some "asset"⟩,
        some ⟨"tokenInfo:t", ⟨some "N", some "T", none, 0, some "asset"⟩, 0, none⟩)) := by
  exact ⟨rfl, rfl, rfl⟩

/-- C6: for every `total > 0`, `getWalletTier` computes the spec's
`tierOf` — rank 0 gives the lowest tier, otherwise the first tier `i`
in ascending threshold order over `[2,20,50,80,100]` with
`ceil(threshold_i * total / 100) >= rank`, defaulting to the lowest
tier — and for `total = 10` the ranks 1..10 map to the tiers
`[1,2,3,3,3,4,4,4,5,5]`. -/
theorem getWalletTier_spec :
    (∀ rank total : Nat, 0 < total → getWalletTier rank total = tierOfSpec rank total) ∧
    (List.range 10).map (fun k => getWalletTier (k + 1) 10) = [1, 2, 3, 3, 3, 4, 4, 4, 5, 5] := by
  constructor
  · intro rank total htotal
    by_cases hr : rank = 0
    · simp [getWalletTier, tierOfSpec, hr, TierTypesCORE]
    · have hrange : List.range 5 = [0, 1, 2, 3, 4] := rfl
      simp only [getWalletTier, tierOfSpec, hr, if_neg, if_false, getTierThresholds,
        if_pos htotal, Tiers, hrange, List.map_cons, List.map_nil, List.getD,
        findTierLoop, List.find?, List.getD_cons_zero, List.getD_cons_succ]
      norm_num [findTierLoop, TierTypesCORE]
      by_cases h1 : rank ≤ ceilPct 2 total <;>
        by_cases h2 : rank ≤ ceilPct 20 total <;>
        by_cases h3 : rank ≤ ceilPct 50 total <;>
        by_cases h4 : rank ≤ ceilPct 80 total <;>
        by_cases h5 : rank ≤ ceilPct 100 total <;>
        simp [h1, h2, h3, h4, h5]
  · decide

/-- Witness for C6 at rank 7 of 10 wallets. -/
theorem getWalletTier_spec_witness :
    getWalletTier 7 10 = tierOfSpec 7 10 :=
  getWalletTier_spec.1 7 10 (by decide)

/-- C1: when the price fetch fails, `getPrice` returns the
previously-cached value (with `fresh = false` whenever that value was
stale) instead of raising, and the fetch error propagates to the caller
exactly when no cached value exists. -/
theorem getPrice_staleOnError (cached : Option CachedPriceData) (now : Int) (e : String) :
    ((getPrice cached (Except.error e) now).isOk ↔ cached.isSome) ∧
    (∀ c, cached = some c → 300 ≤ (now - c.timestamp).fdiv 1000 →
      getPrice cached (Except.error e) now =
        Except.ok ⟨c.price, false, some c.timestamp, some ((now - c.timestamp).fdiv 1000)⟩) ∧
    (cached = none →
      getPrice cached (Except.error e) now = Except.error ("Failed to fetch price: " ++ e)) := by
  refine ⟨?_, ?_, ?_⟩
  · cases cached with
    | none => simp [getPrice, getPriceFetch, Except.isOk, Except.toBool]
    | some c =>
      by_cases hfresh : (now - c.timestamp).fdiv 1000 < 300 <;>
        simp [getPrice, getPriceFetch, Except.isOk, Except.toBool, hfresh]
  · intro c hc hstale
    subst hc
    have hcond : ¬ (now - c.timestamp).fdiv 1000 < 300 := by omega
    simp [getPrice, getPriceFetch, hcond]
  · intro hc
    subst hc
    simp [getPrice, getPriceFetch]

/-- Witness for C1: a stale cached value (age 1000000 s) is served with
`fresh = false` on fetch failure, and with no cached value the fetch
error propagates. -/
theorem getPrice_staleOnError_witness :
    getPrice (some ⟨42, 0⟩) (Except.error "down") 1000000000 =
      Except.ok ⟨42, false, some 0, some 1000000⟩ ∧
    getPrice none (Except.error "down") 7 =
      Except.error ("Failed to fetch price: " ++ "down") :=
  ⟨(getPrice_staleOnError (some ⟨42, 0⟩) 1000000000 "down").2.1 ⟨42, 0⟩ rfl (by decide),
   (getPrice_staleOnError none 7 "down").2.2 rfl⟩

/-- C5 counterexample: the claim requires `now - snapshotTimestamp < 24h`
for acceptance (rejecting a snapshot whose age is not strictly under 24
hours), but the code only rejects `now - snapshotTimestamp > ONE_DAY_MS`:
a snapshot of age exactly 24 hours (snapshotTimestamp 1, now 86400001,
one valid record, totalHolders 1) is accepted and the fallback path is
not taken. -/
theorem tierSnapshot_exactly24h_accepted :
    ¬ ((86400001 : Int) - 1 < ONE_DAY_MS_INT) ∧
    (getWalletsTierInfoPrimary (fun _ => true)
      [("a", ⟨"1", some 1, 1, 1, 1, 1⟩)] 86400001).isOk = true ∧
    (getWalletsTierInfoFromAo (fun _ => true)
      (Except.ok [("a", ⟨"1", some 1, 1, 1, 1, 1⟩)]) 86400001 ⟨[], 0, 0⟩).2 = false := by
  refine ⟨by decide, by decide, by decide⟩

/-- C5 (amended): the TierEngine accepts a primary snapshot exactly when
at least one address-format-valid record exists, the first such record's
`snapshotTimestamp` and `totalHolders` are non-zero, the count of
distinct address-format-valid record keys equals `totalHolders`, and
`now - snapshotTimestamp <= 24h` (at most — not strictly less than — 24
hours); any violation discards the primary result and routes
`getWalletsTierInfoFromAo` to the fallback path. -/
theorem tierSnapshot_validation_characterization (isAddr : String → Bool)
    (data : List (String × TierWallet)) (now : Int) (fallback : WalletsTierInfoResult) :
    ((getWalletsTierInfoPrimary isAddr data now).isOk ↔
      ∃ first, (data.filter (fun p => isAddr p.1)).head? = some first ∧
        first.2.snapshotTimestamp ≠ 0 ∧ first.2.totalHolders ≠ 0 ∧
        ((((data.filter (fun p => isAddr p.1)).map Prod.fst).dedup.length : Int) =
          first.2.totalHolders) ∧
        now - first.2.snapshotTimestamp ≤ ONE_DAY_MS_INT) ∧
    ((getWalletsTierInfoFromAo isAddr (Except.ok data) now fallback).2 =
      !(getWalletsTierInfoPrimary isAddr data now).isOk) ∧
    (∀ e, (getWalletsTierInfoFromAo isAddr (Except.error e) now fallback).2 = true) := by
  refine ⟨?_, ?_, fun e => rfl⟩
  · cases hh : (data.filter (fun p => isAddr p.1)).head? with
    | none =>
      constructor
      · intro hok
        exfalso
        revert hok
        unfold getWalletsTierInfoPrimary
        rw [hh]
        simp [Except.isOk, Except.toBool]
      · rintro ⟨first', hfeq, -⟩
        exact Option.noConfusion hfeq
    | some first =>
      constructor
      · intro hok
        unfold getWalletsTierInfoPrimary at hok
        rw [hh] at hok
        dsimp only at hok
        refine ⟨first, rfl, ?_⟩
        split_ifs at hok with h1 h2 h3
        · simp [Except.isOk, Except.toBool] at hok
        · simp [Except.isOk, Except.toBool] at hok
        · simp [Except.isOk, Except.toBool] at hok
        · push_neg at h1 h3
          push_neg at h2
          exact ⟨h1.1, h1.2, h2, by omega⟩
      · rintro ⟨first', hfeq, hts, hth, hcount, hage⟩
        injection hfeq with hfe
        subst hfe
        unfold getWalletsTierInfoPrimary
        rw [hh]
        dsimp only
        have h1 : ¬ (first.2.snapshotTimestamp = 0 ∨ first.2.totalHolders = 0) := by
          push_neg
          exact ⟨hts, hth⟩
        have h2 : ¬ ((((data.filter (fun p => isAddr p.1)).map Prod.fst).dedup.length : Int) ≠
            first.2.totalHolders) := by
          simpa using hcount
        have h3 : ¬ (now - first.2.snapshotTimestamp > ONE_DAY_MS_INT) := by omega
        rw [if_neg h1, if_neg h2, if_neg h3]
        rfl
  · unfold getWalletsTierInfoFromAo
    dsimp only
    cases hres : getWalletsTierInfoPrimary isAddr data now with
    | ok r => simp [Except.isOk, Except.toBool]
    | error e => simp [Except.isOk, Except.toBool]

/-- Overwriting the entries keyed `k` leaves lookups of other keys
unchanged. -/
theorem lookup_overwrite (m : PriceMap) (k k' : String) (v : Option Int)
    (h : k' ≠ k) :
    (m.map (fun p => if p.1 = k then (k, v) else p)).lookup k' = m.lookup k' := by
  induction m with
  | nil => rfl
  | cons hd tl ih =>
    simp only [List.map_cons]
    by_cases hhd : hd.1 = k
    · rw [if_pos hhd]
      have hne : (k' == k) = false := by
        simp [h]
      have hne2 : (k' == hd.1) = false := by
        rw [hhd]
        exact hne
      simp [List.lookup, hne, hne2, ih]
    · rw [if_neg hhd]
      cases hb : k' == hd.1 <;> simp [List.lookup, hb, ih]

/-- Appending an entry keyed `k` leaves lookups of other keys unchanged. -/
theorem lookup_append_single (m : PriceMap) (k k' : String) (v : Option Int)
    (h : k' ≠ k) :
    (m ++ [(k, v)]).lookup k' = m.lookup k' := by
  induction m with
  | nil =>
    have hne : (k' == k) = false := by
      simp [h]
    simp [List.lookup, hne]
  | cons hd tl ih =>
    cases hb : k' == hd.1 <;> simp [List.lookup, hb, ih]

/-- `setPrice` only affects the assigned key. -/
theorem lookup_setPrice_ne (m : PriceMap) (k k' : String) (v : Option Int)
    (h : k' ≠ k) : (setPrice m k v).lookup k' = m.lookup k' := by
  unfold setPrice
  split_ifs with hs
  · exact lookup_overwrite m k k' v h
  · exact lookup_append_single m k k' v h

/-- C3: the first provider reporting `succeeded = true` determines the
entire result of `fetchBotegaPrices` — every key other than the
designated AO asset key resolves exactly as in that provider's map
(null entries included, nothing merged from the earlier failed or later
unconsulted providers), and when the dedicated AO secondary lookup is
not triggered the result is that provider's map verbatim. -/
theorem fetchBotegaPrices_firstSuccess (tokenIds : List String)
    (pre post : List ProviderOutcome) (p : ProviderOutcome) (aoPrice : Option Int)
    (hpre : ∀ q ∈ pre, q.succeeded = false) (hp : p.succeeded = true) :
    (∀ k, k ≠ AO_PROCESS_ID →
      (fetchBotegaPrices tokenIds (pre ++ p :: post) aoPrice).lookup k =
        p.prices.lookup k) ∧
    (¬ (tokenIds.contains AO_PROCESS_ID = true ∧
        isFalsyPrice (p.prices.lookup AO_PROCESS_ID) = true) →
      fetchBotegaPrices tokenIds (pre ++ p :: post) aoPrice = p.prices) := by
  induction pre with
  | nil =>
    rw [List.nil_append]
    unfold fetchBotegaPrices
    rw [hp]
    simp only [if_true]
    constructor
    · intro k hk
      by_cases hcond :
          (tokenIds.contains AO_PROCESS_ID && isFalsyPrice (p.prices.lookup AO_PROCESS_ID)) = true
      · rw [if_pos hcond]
        exact lookup_setPrice_ne _ _ _ _ hk
      · rw [if_neg hcond]
    · intro hcond
      have hfb : (tokenIds.contains AO_PROCESS_ID &&
          isFalsyPrice (p.prices.lookup AO_PROCESS_ID)) = false := by
        cases hc : tokenIds.contains AO_PROCESS_ID with
        | false => rw [Bool.false_and]
        | true =>
          cases hf : isFalsyPrice (p.prices.lookup AO_PROCESS_ID) with
          | false => rw [Bool.true_and]
          | true => exact absurd ⟨hc, hf⟩ hcond
      rw [hfb]
      simp
  | cons q pre ih =>
    have hq : q.succeeded = false := hpre q (List.mem_cons_self q pre)
    have hrest : ∀ r ∈ pre, r.succeeded = false :=
      fun r hr => hpre r (List.mem_cons_of_mem q hr)
    rw [List.cons_append]
    unfold fetchBotegaPrices
    rw [hq]
    simpa using ih hrest

/-- Witness for C3: with a failed first source, a successful second
source and an unconsulted third source, the chain returns the second
source's map verbatim (null entry for "b" included). -/
theorem fetchBotegaPrices_firstSuccess_witness :
    fetchBotegaPrices ["a", "b"]
      [⟨false, [("a", some 1)]⟩, ⟨true, [("a", some 5), ("b", none)]⟩,
        ⟨true, [("b", some 9)]⟩] none =
      [("a", some 5), ("b", none)] :=
  (fetchBotegaPrices_firstSuccess ["a", "b"] [⟨false, [("a", some 1)]⟩]
    [⟨true, [("b", some 9)]⟩] ⟨true, [("a", some 5), ("b", none)]⟩ none
    (by decide) rfl).2 (by decide)

/-- When `pRetryGo` starting at attempt `i` exhausts its `fuel` without
a success, it has made exactly `fuel + 1` further invocations. -/
theorem pRetryGo_none_attempts (f : Nat → Option α) :
    ∀ fuel i, (pRetryGo f i fuel).1 = none → (pRetryGo f i fuel).2 = i + fuel + 1 := by
  intro fuel
  induction fuel with
  | zero =>
    intro i h
    cases hf : f i <;> simp [pRetryGo, hf]
  | succ n ih =>
    intro i h
    cases hf : f i with
    | some v => simp [pRetryGo, hf] at h
    | none =>
      have h' : (pRetryGo f (i + 1) n).1 = none := by
        simpa [pRetryGo, hf] using h
      have := ih (i + 1) h'
      simp [pRetryGo, hf, this]
      omega

/-- A key failed by `processKey` exhausted the full `pRetry` budget of
`maxRetries + 1` invocations. -/
theorem processKey_none_attempts (fetch : String → Nat → Option TokenInfo)
    (maxRetries : Nat) (k : String) (h : (processKey fetch maxRetries k).1 = none) :
    (processKey fetch maxRetries k).2 = maxRetries + 1 := by
  have := pRetryGo_none_attempts (fetch k) maxRetries 0 h
  simpa [processKey, pRetryModel] using this

/-- Filtering a key-tagged map for a key that occurs once (the list of
keys being duplicate-free) leaves exactly that key's entry. -/
theorem map_pair_filter_eq_singleton (kept : List String) (h : String → Nat)
    (k : String) (hnd : kept.Nodup) (hk : k ∈ kept) :
    (kept.map (fun x => (x, h x))).filter (fun p => p.1 == k) = [(k, h k)] := by
  induction kept with
  | nil => cases hk
  | cons a as ih =>
    rcases List.mem_cons.mp hk with rfl | hk'
    · have hnotk : k ∉ as := (List.nodup_cons.mp hnd).1
      have hfil : (as.map (fun x => (x, h x))).filter (fun p => p.1 == k) = [] := by
        rw [List.filter_eq_nil_iff]
        intro p hp
        rcases List.mem_map.mp hp with ⟨x, hx, rfl⟩
        simp only [beq_iff_eq]
        intro hxk
        exact hnotk (hxk ▸ hx)
      simp [List.filter_cons, hfil]
    · have hka : a ≠ k := by
        rintro rfl
        exact (List.nodup_cons.mp hnd).1 hk'
      have hbeq : (a == k) = false := by
        simp [hka]
      simp [List.filter_cons, hbeq, ih (List.nodup_cons.mp hnd).2 hk']

/-- Filtering a key-tagged map for an absent key leaves nothing. -/
theorem map_pair_filter_eq_nil (kept : List String) (h : String → Nat)
    (k : String) (hk : k ∉ kept) :
    (kept.map (fun x => (x, h x))).filter (fun p => p.1 == k) = [] := by
  rw [List.filter_eq_nil_iff]
  intro p hp
  rcases List.mem_map.mp hp with ⟨x, hx, rfl⟩
  simp only [beq_iff_eq]
  intro hxk
  exact hk (hxk ▸ hx)

/-- A key reported failed by a page was kept by the shard filter and had
a fully-exhausted fetch. -/
theorem processPage_failed_spec (fetch : String → Nat → Option TokenInfo)
    (maxRetries numChunks todayChunk : Nat) (page : List String) (k : String)
    (hk : k ∈ (processPage fetch maxRetries numChunks todayChunk page).failed) :
    k ∈ page.filter (fun id => getTokenChunk id numChunks == todayChunk) ∧
    (processKey fetch maxRetries k).1 = none := by
  simp only [processPage] at hk
  rcases List.mem_map.mp hk with ⟨p, hpfilter, hpk⟩
  rcases List.mem_filter.mp hpfilter with ⟨hpouts, hnone⟩
  rcases List.mem_map.mp hpouts with ⟨x, hx, rfl⟩
  dsimp only at hpk
  subst hpk
  exact ⟨hx, Option.isNone_iff_eq_none.mp (by simpa using hnone)⟩

/-- A key appearing among a page's refreshed results was kept by the
shard filter and had a successful fetch. -/
theorem processPage_results_spec (fetch : String → Nat → Option TokenInfo)
    (maxRetries numChunks todayChunk : Nat) (page : List String) (k : String)
    (hk : k ∈ (processPage fetch maxRetries numChunks todayChunk page).results.map Prod.fst) :
    k ∈ page.filter (fun id => getTokenChunk id numChunks == todayChunk) ∧
    (processKey fetch maxRetries k).1 ≠ none := by
  simp only [processPage] at hk
  rcases List.mem_map.mp hk with ⟨pr, hprmem, hprk⟩
  rcases List.mem_filterMap.mp hprmem with ⟨q, hq, hmapq⟩
  rcases List.mem_map.mp hq with ⟨x, hx, rfl⟩
  dsimp only at hmapq
  rcases Option.map_eq_some'.mp hmapq with ⟨ti, hti, hpr⟩
  subst hpr
  dsimp only at hprk
  subst hprk
  exact ⟨hx, by simp [hti]⟩

/-- The trace of one page is the kept keys tagged with their invocation
counts. -/
theorem processPage_trace_eq (fetch : String → Nat → Option TokenInfo)
    (maxRetries numChunks todayChunk : Nat) (page : List String) :
    (processPage fetch maxRetries numChunks todayChunk page).trace =
      (page.filter (fun id => getTokenChunk id numChunks == todayChunk)).map
        (fun x => (x, (processKey fetch maxRetries x).2)) := by
  simp [processPage, List.map_map, Function.comp]

/-- Keys failed by a run occur in the scanned keyspace. -/
theorem updateAll_failed_sub (fetch : String → Nat → Option TokenInfo)
    (maxRetries numChunks todayChunk : Nat) (pages : List (List String)) (k : String)
    (hk : k ∈ (updateAllTokenInfos fetch maxRetries numChunks todayChunk pages).failed) :
    k ∈ pages.flatten := by
  induction pages with
  | nil => cases hk
  | cons page rest ih =>
    simp only [updateAllTokenInfos, List.map_cons, List.flatten_cons,
      List.mem_append] at hk ⊢
    rcases hk with hk | hk
    · exact Or.inl (List.mem_of_mem_filter
        (processPage_failed_spec fetch maxRetries numChunks todayChunk page k hk).1)
    · exact Or.inr (ih hk)

/-- Keys refreshed by a run occur in the scanned keyspace. -/
theorem updateAll_results_sub (fetch : String → Nat → Option TokenInfo)
    (maxRetries numChunks todayChunk : Nat) (pages : List (List String)) (k : String)
    (hk : k ∈ (updateAllTokenInfos fetch maxRetries numChunks todayChunk pages).results.map
      Prod.fst) :
    k ∈ pages.flatten := by
  induction pages with
  | nil => cases hk
  | cons page rest ih =>
    simp only [updateAllTokenInfos, List.map_cons, List.flatten_cons,
      List.map_append, List.mem_append] at hk ⊢
    rcases hk with hk | hk
    · exact Or.inl (List.mem_of_mem_filter
        (processPage_results_spec fetch maxRetries numChunks todayChunk page k hk).1)
    · exact Or.inr (ih hk)

/-- A key outside the scanned keyspace leaves no entry in the run's
fetch trace. -/
theorem updateAll_trace_filter_nil (fetch : String → Nat → Option TokenInfo)
    (maxRetries numChunks todayChunk : Nat) (pages : List (List String)) (k : String)
    (hk : k ∉ pages.flatten) :
    (updateAllTokenInfos fetch maxRetries numChunks todayChunk pages).trace.filter
      (fun p => p.1 == k) = [] := by
  induction pages with
  | nil => rfl
  | cons page rest ih =>
    simp only [List.flatten_cons, List.mem_append, not_or] at hk
    have hpage : (processPage fetch maxRetries numChunks todayChunk page).trace.filter
        (fun p => p.1 == k) = [] := by
      rw [processPage_trace_eq]
      exact map_pair_filter_eq_nil _ _ _ (fun hmem => hk.1 (List.mem_of_mem_filter hmem))
    simp only [updateAllTokenInfos, List.map_cons, List.flatten_cons, List.filter_append,
      hpage, List.nil_append]
    exact ih hk.2

/-- C8: provided the scanned pages never repeat a key, a key reported
failed by `updateAllTokenInfos` was fetched exactly `maxRetries + 1`
times (the full per-key retry budget, all within its own page) and is
absent from the refreshed results: it is only aggregated and reported,
with no further fetch attempt anywhere else in the run. -/
theorem updateAll_failed_not_retried (fetch : String → Nat → Option TokenInfo)
    (maxRetries numChunks todayChunk : Nat) (pages : List (List String)) (k : String)
    (hnd : pages.flatten.Nodup)
    (hk : k ∈ (updateAllTokenInfos fetch maxRetries numChunks todayChunk pages).failed) :
    (updateAllTokenInfos fetch maxRetries numChunks todayChunk pages).trace.filter
      (fun p => p.1 == k) = [(k, maxRetries + 1)] ∧
    k ∉ (updateAllTokenInfos fetch maxRetries numChunks todayChunk pages).results.map
      Prod.fst := by
  induction pages with
  | nil => cases hk
  | cons page rest ih =>
    rw [List.flatten_cons] at hnd
    have hpagend : page.Nodup := hnd.of_append_left
    have hrestnd : rest.flatten.Nodup := hnd.of_append_right
    have hdisj : ∀ x ∈ page, x ∉ rest.flatten :=
      fun x hx hx' => (List.disjoint_of_nodup_append hnd) hx hx'
    simp only [updateAllTokenInfos, List.map_cons, List.flatten_cons, List.mem_append,
      List.filter_append, List.map_append] at hk ⊢
    rcases hk with hk | hk
    · rcases processPage_failed_spec fetch maxRetries numChunks todayChunk page k hk with
        ⟨hkept, hnone⟩
      have hkpage : k ∈ page := List.mem_of_mem_filter hkept
      have hpagetr : (processPage fetch maxRetries numChunks todayChunk page).trace.filter
          (fun p => p.1 == k) = [(k, maxRetries + 1)] := by
        rw [processPage_trace_eq,
          map_pair_filter_eq_singleton _ _ _ (hpagend.filter _) hkept,
          processKey_none_attempts fetch maxRetries k hnone]
      have hresttr : (updateAllTokenInfos fetch maxRetries numChunks todayChunk rest).trace.filter
          (fun p => p.1 == k) = [] :=
        updateAll_trace_filter_nil fetch maxRetries numChunks todayChunk rest k
          (hdisj k hkpage)
      constructor
      · rw [hpagetr]
        have : (updateAllTokenInfos fetch maxRetries numChunks todayChunk rest).trace =
            ((rest.map fun p => (processPage fetch maxRetries numChunks todayChunk p).trace)).flatten := rfl
        rw [← this, hresttr, List.append_nil]
      · intro hmem
        rcases hmem with hmem | hmem
        · exact absurd hnone
            (processPage_results_spec fetch maxRetries numChunks todayChunk page k hmem).2
        · exact hdisj k hkpage
            (updateAll_results_sub fetch maxRetries numChunks todayChunk rest k hmem)
    · have hkrest : k ∈ rest.flatten :=
        updateAll_failed_sub fetch maxRetries numChunks todayChunk rest k hk
      have hkpage : k ∉ page := fun hx => hdisj k hx hkrest
      have hpagetr : (processPage fetch maxRetries numChunks todayChunk page).trace.filter
          (fun p => p.1 == k) = [] := by
        rw [processPage_trace_eq]
        exact map_pair_filter_eq_nil _ _ _
          (fun hmem => hkpage (List.mem_of_mem_filter hmem))
      rcases ih hrestnd hk with ⟨ihtr, ihres⟩
      constructor
      · rw [hpagetr, List.nil_append]
        exact ihtr
      · intro hmem
        rcases hmem with hmem | hmem
        · exact hkpage (List.mem_of_mem_filter
            (processPage_results_spec fetch maxRetries numChunks todayChunk page k hmem).1)
        · exact ihres hmem

/-- Witness for C8: one page with key "a", every fetch failing, shard
count 1 and retry budget 2 — "a" is reported failed after exactly 3
invocations and never refreshed. -/
theorem updateAll_failed_not_retried_witness :
    (updateAllTokenInfos (fun _ _ => none) 2 1 0 [["a"]]).trace.filter
      (fun p => p.1 == "a") = [("a", 3)] ∧
    "a" ∉ (updateAllTokenInfos (fun _ _ => none) 2 1 0 [["a"]]).results.map Prod.fst :=
  updateAll_failed_not_retried (fun _ _ => none) 2 1 0 [["a"]] "a"
    (by decide) (by decide)

end WanderCache
